import Mathlib

/-!
Verification of the layout/rendering contract of `tumor_network.py`
(`create_web_network` and the embedded browser script).

The Python/JS float arithmetic is embedded exactly over `ℚ` (all operations
involved are field operations on decimal literals) except where the source
computes transcendental functions (`cos`, `sin`, `sqrt`, `π`), which are
embedded over `ℝ` with `Real.cos`, `Real.sin`, `Real.sqrt`, `Real.pi`.
-/

set_option maxHeartbeats 1000000

attribute [local semireducible] Rat.ofScientific Rat.mul Rat.inv Rat.add Rat.sub

namespace TumorNetwork

/-- One row of the input table: columns `Tumor`, `Gene Symbol`, `PCC`. -/
structure Row where
  tumor : String
  geneSymbol : String
  pcc : ℚ
deriving DecidableEq

/-- A row paired with its original dataframe index.  Pandas boolean filtering
(`df[df['PCC'] >= 0.8]`) keeps the original `RangeIndex` labels, and
`iterrows()` later yields exactly these labels as `idx`. -/
abbrev IRow := ℕ × Row

/-- `filtered_df = df[df['PCC'] >= 0.8]`: keep the rows whose PCC is at least
the fixed threshold 0.8, retaining original row indices. -/
def filteredRows (rows : List Row) : List IRow :=
  rows.enum.filter (fun p => decide ((0.8 : ℚ) ≤ p.2.pcc))

/-- `Series.unique()`: distinct values in order of first appearance
(`seen` accumulates the values already emitted). -/
def uniqueFirstSeen : List String → List String → List String
  | [], _ => []
  | a :: l, seen =>
      if a ∈ seen then uniqueFirstSeen l seen else a :: uniqueFirstSeen l (a :: seen)

/-- `tissue_types = filtered_df['Tumor'].unique()`. -/
def tissueTypes (rows : List Row) : List String :=
  uniqueFirstSeen ((filteredRows rows).map (fun p => p.2.tumor)) []

/-- `tissue_gene_counts = Counter(filtered_df['Tumor'])` looked up at `t`. -/
def tissueGeneCount (rows : List Row) (t : String) : ℕ :=
  ((filteredRows rows).filter (fun p => decide (p.2.tumor = t))).length

/-- The key order used by `sort_values('PCC')`: ascending by PCC. -/
def pccLE (a b : IRow) : Prop := a.2.pcc ≤ b.2.pcc

instance : DecidableRel pccLE := fun a b => inferInstanceAs (Decidable (a.2.pcc ≤ b.2.pcc))

instance : IsTotal IRow pccLE := ⟨fun a b => le_total a.2.pcc b.2.pcc⟩

instance : IsTrans IRow pccLE := ⟨fun _ _ _ h h2 => le_trans h h2⟩

/-- Model of `sort_values('PCC', ascending=False)`.  Pandas computes an
ascending argsort of the values (stable at the sizes involved, where numpy
quicksort reduces to insertion sort) and then reverses the indexer
(`nargsort`: `indexer = non_nans.argsort(kind=kind); if not ascending:
indexer = indexer[::-1]`), so the result is the reverse of a stable
ascending sort. -/
def sortDescPCC (l : List IRow) : List IRow :=
  (List.insertionSort pccLE l).reverse

/-- The rows of tissue `t` sorted descending by PCC and truncated by
`head(max_genes_per_tissue)` to the 150-gene cap. -/
def selectedRows (rows : List Row) (t : String) : List IRow :=
  (sortDescPCC ((filteredRows rows).filter (fun p => decide (p.2.tumor = t)))).take 150

/-- `node_type` attribute values. -/
inductive NodeKind
  | central
  | tissue
  | gene
deriving DecidableEq

/-- A node of the networkx graph `G` and its attributes (`pcc`, `tissue`,
`gene_count` are only meaningful for the kinds that set them; unset
attributes are kept at defaults). -/
structure GNode where
  id : String
  kind : NodeKind
  pcc : ℚ
  tissue : String
  geneCount : ℕ
deriving DecidableEq

/-- The graph `G`: node list in insertion order, edge list with weights. -/
structure Net where
  nodes : List GNode
  edges : List (String × String × ℚ)
deriving DecidableEq

def hasNode (net : Net) (i : String) : Bool :=
  net.nodes.any (fun n => decide (n.id = i))

/-- `G.add_node(central_node, node_type='central')`: insert the node, or
update its `node_type` attribute if it already exists. -/
def addCentral (net : Net) (i : String) : Net :=
  if hasNode net i then
    let upd := fun (n : GNode) => if n.id = i then { n with kind := .central } else n
    { net with nodes := net.nodes.map upd }
  else { net with nodes := net.nodes ++ [⟨i, .central, 0, "", 0⟩] }

/-- `G.add_node(tissue, node_type='tissue', gene_count=...)`. -/
def addTissue (net : Net) (i : String) (c : ℕ) : Net :=
  if hasNode net i then
    let upd := fun (n : GNode) =>
      if n.id = i then { n with kind := .tissue, geneCount := c } else n
    { net with nodes := net.nodes.map upd }
  else { net with nodes := net.nodes ++ [⟨i, .tissue, 0, "", c⟩] }

/-- Whether an edge-list entry is the unordered pair `{u, v}`. -/
def edgeMatches (u v : String) (e : String × String × ℚ) : Bool :=
  (decide (e.1 = u) && decide (e.2.1 = v)) || (decide (e.1 = v) && decide (e.2.1 = u))

/-- `G.add_edge(u, v, weight=w)` on an undirected graph: update the weight if
the unordered pair already exists, otherwise append the edge. -/
def upsertEdge (es : List (String × String × ℚ)) (u v : String) (w : ℚ) :
    List (String × String × ℚ) :=
  if es.any (edgeMatches u v) then
    es.map (fun e => if edgeMatches u v e then (e.1, e.2.1, w) else e)
  else es ++ [(u, v, w)]

/-- Body of the gene loop: `if gene not in G: G.add_node(gene, node_type='gene',
pcc=pcc, tissue=tissue)` followed by `G.add_edge(gene, tissue, weight=pcc*3)`. -/
def addGeneRow (t : String) (net : Net) (r : IRow) : Net :=
  let g := r.2.geneSymbol
  let net1 := if hasNode net g then net
              else { net with nodes := net.nodes ++ [⟨g, .gene, r.2.pcc, t, 0⟩] }
  { net1 with edges := upsertEdge net1.edges g t (r.2.pcc * 3) }

/-- The inner loop `for idx, row in tissue_genes.iterrows()` over one tissue's
selected rows. -/
def addTissueGenes (rows : List Row) (net : Net) (t : String) : Net :=
  (selectedRows rows t).foldl (addGeneRow t) net

/-- One iteration of the tissue loop: `G.add_node(tissue, node_type='tissue',
gene_count=...)` then `G.add_edge(central_node, tissue, weight=5.0)`. -/
def addTissueStep (central : String) (rows : List Row) (net : Net) (t : String) : Net :=
  let netT := addTissue net t (tissueGeneCount rows t)
  { netT with edges := upsertEdge netT.edges central t 5 }

/-- The graph `G` built by `create_web_network`: central node, then one tissue
node and central–tissue edge (weight 5.0) per tissue type in first-seen order,
then the per-tissue gene loops.  Positions are modelled separately. -/
def buildNet (central : String) (rows : List Row) : Net :=
  let net2 := (tissueTypes rows).foldl (addTissueStep central rows) (addCentral ⟨[], []⟩ central)
  (tissueTypes rows).foldl (addTissueGenes rows) net2

/-- The gene nodes of the graph. -/
def geneNodes (net : Net) : List GNode :=
  net.nodes.filter (fun n => decide (n.kind = .gene))

/-- The tissue nodes of the graph. -/
def tissueNodes (net : Net) : List GNode :=
  net.nodes.filter (fun n => decide (n.kind = .tissue))

/-- How many gene nodes carry originating-tissue attribute `t`. -/
def geneCountFor (net : Net) (t : String) : ℕ :=
  (net.nodes.filter (fun n => decide (n.kind = .gene) && decide (n.tissue = t))).length

/-- The stored weight of the (undirected) edge `{u, v}`, if present. -/
def edgeWeight (net : Net) (u v : String) : Option ℚ :=
  (net.edges.find? (edgeMatches u v)).map (fun e => e.2.2)

/-- The three-row table of the end-to-end test in the specification. -/
def demoRows : List Row :=
  [⟨"TissueA", "Gene1", 0.95⟩, ⟨"TissueA", "Gene2", 0.81⟩, ⟨"TissueB", "Gene3", 0.79⟩]

/-! ## Generation-time positions (`fixed_positions`) -/

/-- `golden_angle = math.pi * (3 - math.sqrt(5))`. -/
noncomputable def goldenAngle : ℝ := Real.pi * (3 - Real.sqrt 5)

/-- The position assigned to the `i`-th tissue type:
`(radius * cos(i * golden_angle), radius * sin(i * golden_angle))`, radius 400. -/
noncomputable def tissueAnchor (i : ℕ) : ℝ × ℝ :=
  (400 * Real.cos (i * goldenAngle), 400 * Real.sin (i * goldenAngle))

/-- Euclidean distance in the plane. -/
noncomputable def dist2D (p q : ℝ × ℝ) : ℝ :=
  Real.sqrt ((p.1 - q.1) ^ 2 + (p.2 - q.2) ^ 2)

/-- `fixed_positions[tissue]` for each tissue type: the `i`-th tissue type in
first-seen order is anchored at `tissueAnchor i` (`for i, tissue in
enumerate(tissue_types)`). -/
noncomputable def tissuePosList (rows : List Row) : List (String × (ℝ × ℝ)) :=
  (tissueTypes rows).enum.map (fun p => (p.2, tissueAnchor p.1))

/-- The base spiral angle the gene loop computes for row `r` of tissue `t`:
`angle = (idx / len(tissue_genes)) * 2 * np.pi`.  Here `idx` is the value
`iterrows()` yields, i.e. the row's original dataframe index `r.1` (boolean
filtering and sorting preserve index labels), and `len(tissue_genes)` is the
size of the truncated selection. -/
noncomputable def geneBaseAngle (rows : List Row) (t : String) (r : IRow) : ℝ :=
  ((r.1 : ℝ) / ((selectedRows rows t).length : ℝ)) * (2 * Real.pi)

/-- `distance = 50 + (1 - pcc) * 150`. -/
def geneBaseDistance (pcc : ℚ) : ℚ := 50 + (1 - pcc) * 150

/-! ## The browser-side renderer -/

/-- The renderer's view transform: `scale`, `offsetX`, `offsetY`.  All wheel /
pan arithmetic is field arithmetic on decimal literals, embedded exactly
over `ℚ`. -/
structure ViewState where
  scale : ℚ
  offsetX : ℚ
  offsetY : ℚ
deriving DecidableEq

def MIN_SCALE : ℚ := 0.1

def MAX_SCALE : ℚ := 5

/-- `handleWheel`: record the plane point under the cursor, multiply the scale
by 1.1 (`deltaY < 0`) or 0.9 (otherwise), clamp with
`Math.max(MIN_SCALE, Math.min(MAX_SCALE, scale))`, and recompute the offset as
`mouse - point * scale`. -/
def handleWheel (st : ViewState) (mouseX mouseY deltaY : ℚ) : ViewState :=
  let x := (mouseX - st.offsetX) / st.scale
  let y := (mouseY - st.offsetY) / st.scale
  let s1 := if deltaY < 0 then st.scale * 1.1 else st.scale * 0.9
  let s2 := max MIN_SCALE (min MAX_SCALE s1)
  { scale := s2, offsetX := mouseX - x * s2, offsetY := mouseY - y * s2 }

/-- The plane coordinate under a screen point, `(mouse - offset) / scale`,
as computed by the view transform. -/
def planePoint (st : ViewState) (mouseX mouseY : ℚ) : ℚ × ℚ :=
  ((mouseX - st.offsetX) / st.scale, (mouseY - st.offsetY) / st.scale)

/-- A serialized node as the browser script sees it (an entry of `nodesData`).
The coordinate type `α` is `ℚ` where the embedding is exact and `ℝ` where
positions involve `cos`/`sin`.  In the generated array `name` always equals
`id`, so a single `id` field stands for both. -/
structure VNode (α : Type) where
  id : String
  node_type : String
  size : ℚ
  pcc : ℚ
  tissue : String
  x : α
  y : α
deriving DecidableEq

/-- `getNodeAtPosition`'s per-node test: the Euclidean distance from the
pointer `(x, y)` to the node's screen-projected centre
`(node.x * scale + offsetX, node.y * scale + offsetY)` is at most the node's
screen radius `node.size * scale`. -/
def nodeHit (st : ViewState) (x y : ℚ) (n : VNode ℚ) : Prop :=
  Real.sqrt (((x : ℝ) - ((n.x * st.scale + st.offsetX : ℚ) : ℝ)) ^ 2 +
      ((y : ℝ) - ((n.y * st.scale + st.offsetY : ℚ) : ℝ)) ^ 2) ≤ ((n.size * st.scale : ℚ) : ℝ)

instance (st : ViewState) (x y : ℚ) (n : VNode ℚ) : Decidable (nodeHit st x y n) :=
  decidable_of_iff
    (0 ≤ n.size * st.scale ∧
      (x - (n.x * st.scale + st.offsetX)) ^ 2 + (y - (n.y * st.scale + st.offsetY)) ^ 2 ≤
        (n.size * st.scale) ^ 2)
    (by
      rw [nodeHit, Real.sqrt_le_iff]
      constructor <;> intro h <;> exact ⟨by exact_mod_cast h.1, by exact_mod_cast h.2⟩)

/-- The index loop of `getNodeAtPosition`
(`for (let i = nodesData.length - 1; i >= 0; i--)`): `getNodeLoop st x y
nodes (k+1)` examines index `k` and then the smaller indices. -/
def getNodeLoop (st : ViewState) (x y : ℚ) (nodes : List (VNode ℚ)) : ℕ → Option (VNode ℚ)
  | 0 => none
  | k + 1 =>
      match nodes[k]? with
      | some n => if nodeHit st x y n then some n else getNodeLoop st x y nodes k
      | none => getNodeLoop st x y nodes k

/-- `getNodeAtPosition(x, y)`: scan `nodesData` from the last index down to 0
and return the first node whose hit test succeeds. -/
def getNodeAtPosition (st : ViewState) (x y : ℚ) (nodes : List (VNode ℚ)) : Option (VNode ℚ) :=
  getNodeLoop st x y nodes nodes.length

/-- The order in which `drawNetworkToContext` draws node circles: gene nodes
in array order, then tissue nodes in array order, then the first node with
`node_type === 'central'` (found by `nodesData.find`). -/
def drawOrder (nodes : List (VNode ℚ)) : List (VNode ℚ) :=
  nodes.filter (fun n => decide (n.node_type = "gene")) ++
    nodes.filter (fun n => decide (n.node_type = "tissue")) ++
      (nodes.find? (fun n => decide (n.node_type = "central"))).toList

/-- The stable descending sort `tissueGenes.sort((a, b) => b.pcc - a.pcc)`
(`Array.prototype.sort` is stable, and `orderedInsert` under `b.pcc ≤ a.pcc`
keeps equal keys in input order). -/
def jsSortDesc (l : List (VNode ℝ)) : List (VNode ℝ) :=
  List.insertionSort (fun a b => b.pcc ≤ a.pcc) l

/-- The position `optimizeLayout` computes for a gene `g` at rank `idx` of the
`n` sorted genes of tissue node `t`.  `noise g.id = (r₁, r₂)` stands for the
two `Math.random()` draws (each in `[0, 1)`) the iteration makes for `g`. -/
noncomputable def newGenePos (noise : String → ℝ × ℝ) (t : VNode ℝ) (idx n : ℕ)
    (g : VNode ℝ) : ℝ × ℝ :=
  let angle : ℝ := ((idx : ℝ) / (n : ℝ)) * (2 * Real.pi)
  let baseDistance : ℝ := 40 + (1 - (g.pcc : ℝ)) * 100
  let noiseScale : ℝ := 0.2 + 0.5 * (1 - (g.pcc : ℝ))
  let angleNoise : ℝ := ((noise g.id).1 - 0.5) * noiseScale * Real.pi
  let distanceNoise : ℝ := ((noise g.id).2 * 2 - 1) * noiseScale * 60
  let cloudAngle := angle + angleNoise
  let cloudDistance := max 20 (baseDistance + distanceNoise)
  (t.x + cloudDistance * Real.cos cloudAngle, t.y + cloudDistance * Real.sin cloudAngle)

/-- The update `optimizeLayout` applies to one array entry `g`: a gene node
matched by a tissue node is re-placed by the cloud formula at its rank in that
tissue's PCC-descending sorted gene list; every other entry is untouched.
The source mutates the shared node objects tissue by tissue; the per-entry
view is keyed by node id (ids are unique in the generated array; if several
tissue nodes shared an id the last one's pass would win, hence the reversed
`find?`). -/
noncomputable def optimizeNode (noise : String → ℝ × ℝ) (nodes : List (VNode ℝ))
    (g : VNode ℝ) : VNode ℝ :=
  if g.node_type = "gene" then
    match (nodes.filter (fun n => decide (n.node_type = "tissue"))).reverse.find?
        (fun t => decide (t.id = g.tissue)) with
    | some t =>
        let tg := nodes.filter
          (fun n => decide (n.node_type = "gene") && decide (n.tissue = t.id))
        let sorted := jsSortDesc tg
        let idx := sorted.findIdx (fun n => decide (n.id = g.id))
        let p := newGenePos noise t idx sorted.length g
        { g with x := p.1, y := p.2 }
    | none => g
  else g

/-- `optimizeLayout()`: re-place every gene in the array. -/
noncomputable def optimizeLayout (noise : String → ℝ × ℝ) (nodes : List (VNode ℝ)) :
    List (VNode ℝ) :=
  nodes.map (optimizeNode noise nodes)

/-- The node arrays handed to the two `draw()` calls `initialize()` makes:
`resizeCanvas()` draws the array as generated, then `optimizeLayout()`
recomputes gene positions and draws again. -/
noncomputable def initializeDraws (noise : String → ℝ × ℝ) (nodes : List (VNode ℝ)) :
    List (List (VNode ℝ)) :=
  [nodes, optimizeLayout noise nodes]

/-! ## The failure boundary of `create_web_network` -/

/-- The effectful steps of `create_web_network`, as oracles: reading and
parsing the input table (`pd.read_csv` plus the column accesses — a missing
file or malformed table is an `error`), writing the HTML file, and opening
the browser.  Every Python exception from these steps is an `Exception`
subclass, modelled as `Except.error`. -/
structure Env where
  readTable : Except String (List Row)
  writeHTML : Except String Unit
  openPage : Except String Unit

/-- The body of the `try` block: load, build the graph, write the file, open
the browser, and return the graph.  (The companion `fixed_positions` value is
determined by the same rows and carries no separate failure structure.) -/
def tryBody (env : Env) (central : String) : Except String Net := do
  let rows ← env.readTable
  let net := buildNet central rows
  let _ ← env.writeHTML
  let _ ← env.openPage
  pure net

/-- `create_web_network` with its catch-all `except Exception` handler: any
error from the body is caught (and logged) and the function returns the empty
result — `(None, None)` in the source, `none` here. -/
def create_web_network (env : Env) (central : String) : Option Net :=
  match tryBody env central with
  | .ok net => some net
  | .error _ => none

/-- An environment in which reading the input table fails. -/
def envMissingFile : Env := ⟨.error "FileNotFoundError", .ok (), .ok ()⟩

/-- Two rows of one tissue with equal PCC, to probe tie handling. -/
def tieRows : List Row := [⟨"TissueA", "Gene1", 0.9⟩, ⟨"TissueA", "Gene2", 0.9⟩]

/-- Two rows of one tissue whose PCC order differs from their row order, to
probe the spiral-angle computation. -/
def angleRows : List Row := [⟨"A", "G1", 0.85⟩, ⟨"A", "G2", 0.95⟩]

/-- Two rows under two distinct tissue labels, both passing the filter. -/
def twoTissueRows : List Row := [⟨"A", "G1", 0.9⟩, ⟨"B", "G2", 0.9⟩]

/-- A central node at the origin, as serialized (size 50). -/
def cNode : VNode ℚ := ⟨"GCH1", "central", 50, 0, "", 0, 0⟩

/-- A tissue node far from the origin (size 25). -/
def tNode : VNode ℚ := ⟨"T", "tissue", 25, 0, "", 1000, 0⟩

/-- A gene node located at the origin, under the central node (size 3). -/
def gNode : VNode ℚ := ⟨"G", "gene", 3, 0.9, "T", 0, 0⟩

/-- A node array in serialization order: central, tissues, genes. -/
def exNodesQ : List (VNode ℚ) := [cNode, tNode, gNode]

/-- A tissue node anchored at the origin, renderer side. -/
noncomputable def tNodeR : VNode ℝ := ⟨"T", "tissue", 25, 0, "", 0, 0⟩

/-- A full-correlation gene of tissue `T`, generated at `(100, 0)`. -/
noncomputable def gNodeR : VNode ℝ := ⟨"G", "gene", 3, 1, "T", 100, 0⟩

/-- A tissue anchored at the origin with one full-correlation gene at
`(100, 0)`, for exercising the renderer relayout. -/
noncomputable def exNodesR : List (VNode ℝ) := [tNodeR, gNodeR]

/-- Two tissues that share one gene symbol passing the filter under both. -/
def sharedGeneRows : List Row := [⟨"A", "G1", 0.9⟩, ⟨"B", "G1", 0.85⟩]

/-- A noise oracle whose `Math.random()` draws are all 0.5, which makes both
jitter terms vanish. -/
noncomputable def noiseHalf : String → ℝ × ℝ := fun _ => (0.5, 0.5)

/-! ## Lemmas about the pipeline -/

theorem mem_of_mem_selectedRows {rows : List Row} {t : String} {r : IRow}
    (h : r ∈ selectedRows rows t) : r ∈ filteredRows rows ∧ r.2.tumor = t := by
  have h1 : r ∈ sortDescPCC ((filteredRows rows).filter (fun p => decide (p.2.tumor = t))) :=
    List.take_subset _ _ h
  have h2 : r ∈ (filteredRows rows).filter (fun p => decide (p.2.tumor = t)) := by
    rw [sortDescPCC, List.mem_reverse, List.mem_insertionSort] at h1
    exact h1
  exact ⟨(List.mem_filter.mp h2).1, of_decide_eq_true (List.mem_filter.mp h2).2⟩

theorem pcc_of_mem_filteredRows {rows : List Row} {r : IRow} (h : r ∈ filteredRows rows) :
    (0.8 : ℚ) ≤ r.2.pcc :=
  of_decide_eq_true (List.mem_filter.mp h).2

theorem selectedRows_length_le (rows : List Row) (t : String) :
    (selectedRows rows t).length ≤ 150 := by
  rw [selectedRows]
  exact (List.length_take ..).trans_le (min_le_left _ _)

theorem uniqueFirstSeen_disjoint :
    ∀ (l seen : List String) (a : String), a ∈ uniqueFirstSeen l seen → a ∉ seen
  | [], _, a, h => by simp [uniqueFirstSeen] at h
  | b :: l, seen, a, h => by
    by_cases hb : b ∈ seen
    · rw [uniqueFirstSeen, if_pos hb] at h
      exact uniqueFirstSeen_disjoint l seen a h
    · rw [uniqueFirstSeen, if_neg hb] at h
      rcases List.mem_cons.mp h with rfl | h2
      · exact hb
      · intro hseen
        exact uniqueFirstSeen_disjoint l (b :: seen) a h2 (List.mem_cons_of_mem b hseen)

theorem uniqueFirstSeen_nodup : ∀ (l seen : List String), (uniqueFirstSeen l seen).Nodup
  | [], _ => List.nodup_nil
  | b :: l, seen => by
    by_cases hb : b ∈ seen
    · rw [uniqueFirstSeen, if_pos hb]
      exact uniqueFirstSeen_nodup l seen
    · rw [uniqueFirstSeen, if_neg hb]
      refine List.nodup_cons.mpr ⟨?_, uniqueFirstSeen_nodup l (b :: seen)⟩
      intro hmem
      exact uniqueFirstSeen_disjoint l (b :: seen) b hmem (List.mem_cons_self b seen)

theorem tissueTypes_nodup (rows : List Row) : (tissueTypes rows).Nodup :=
  uniqueFirstSeen_nodup _ _

theorem filter_key_orderedInsert (c : ℚ) (a : IRow) (l : List IRow) :
    (l.orderedInsert pccLE a).filter (fun r => decide (r.2.pcc = c)) =
      if a.2.pcc = c then a :: l.filter (fun r => decide (r.2.pcc = c))
      else l.filter (fun r => decide (r.2.pcc = c)) := by
  induction l with
  | nil => by_cases hc : a.2.pcc = c <;> simp [List.orderedInsert, hc]
  | cons b l ih =>
    rw [List.orderedInsert]
    by_cases hab : pccLE a b
    · by_cases hc : a.2.pcc = c <;> simp [List.filter_cons, hc, if_pos hab]
    · have hba : b.2.pcc < a.2.pcc := not_le.mp hab
      rw [if_neg hab]
      by_cases hc : a.2.pcc = c
      · have hbc : ¬ b.2.pcc = c := hc ▸ ne_of_lt hba
        simp [List.filter_cons, hbc, hc, ih]
      · simp only [List.filter_cons, ih, if_neg hc]

theorem filter_key_insertionSort (c : ℚ) (l : List IRow) :
    (List.insertionSort pccLE l).filter (fun r => decide (r.2.pcc = c)) =
      l.filter (fun r => decide (r.2.pcc = c)) := by
  induction l with
  | nil => rfl
  | cons a l ih =>
    rw [List.insertionSort, filter_key_orderedInsert, ih]
    by_cases hc : a.2.pcc = c <;> simp [List.filter_cons, hc]

/-! ## C7: gene selection order -/

/-- C7 counterexample: with two equal-PCC rows of one tissue the selection
emits them in reversed original order, not original order — pandas sorts
ascending and reverses. -/
theorem ties_reversed_not_original :
    (selectedRows tieRows "TissueA").map (fun r => r.2.geneSymbol) ≠ ["Gene1", "Gene2"] ∧
      (selectedRows tieRows "TissueA").map (fun r => r.2.geneSymbol) = ["Gene2", "Gene1"] := by
  decide

/-- C7 amended: per-tissue gene selection sorts descending by PCC (the
selection is pairwise non-increasing and `sortDescPCC` permutes its input) and
truncates to the 150 cap; rows with equal correlation appear in reversed
original order, since pandas performs a stable ascending sort and reverses it. -/
theorem selection_sorted_desc_ties_reversed (rows : List Row) (t : String)
    (l : List IRow) (c : ℚ) :
    List.Pairwise (fun a b : IRow => b.2.pcc ≤ a.2.pcc) (selectedRows rows t) ∧
      (sortDescPCC l).Perm l ∧
      (sortDescPCC l).filter (fun r => decide (r.2.pcc = c)) =
        (l.filter (fun r => decide (r.2.pcc = c))).reverse := by
  refine ⟨?_, (List.reverse_perm _).trans (List.perm_insertionSort pccLE l), ?_⟩
  · have hs : List.Sorted pccLE
        (List.insertionSort pccLE
          ((filteredRows rows).filter (fun p => decide (p.2.tumor = t)))) :=
      List.sorted_insertionSort pccLE _
    have hrev : List.Pairwise (fun a b : IRow => b.2.pcc ≤ a.2.pcc)
        (sortDescPCC ((filteredRows rows).filter (fun p => decide (p.2.tumor = t)))) := by
      rw [sortDescPCC, List.pairwise_reverse]
      exact hs
    exact hrev.sublist (List.take_sublist _ _)
  · rw [sortDescPCC, List.filter_reverse, filter_key_insertionSort]

/-! ## C5: the end-to-end example -/

/-- C5 counterexample: on the three-row example the output has exactly one
tissue node, not two — TissueB's only row is removed by the PCC filter before
tissue enumeration, so TissueB never becomes a node. -/
theorem demo_tissue_count_not_two :
    (tissueNodes (buildNet "GCH1" demoRows)).length = 1 ∧
      (tissueNodes (buildNet "GCH1" demoRows)).length ≠ 2 := by
  decide

/-- C5 amended: on the three-row example the output contains no node for
Gene3, exactly one tissue node and exactly two gene nodes, and each gene's
edge to its tissue weighs its correlation times 3. -/
theorem demo_end_to_end :
    (buildNet "GCH1" demoRows).nodes.all (fun n => decide (n.id ≠ "Gene3")) = true ∧
      (tissueNodes (buildNet "GCH1" demoRows)).length = 1 ∧
      (geneNodes (buildNet "GCH1" demoRows)).map GNode.id = ["Gene1", "Gene2"] ∧
      edgeWeight (buildNet "GCH1" demoRows) "Gene1" "TissueA" = some (0.95 * 3) ∧
      edgeWeight (buildNet "GCH1" demoRows) "Gene2" "TissueA" = some (0.81 * 3) := by
  decide

/-! ## C1: threshold and cap on gene nodes -/

theorem genesOK_addGeneRow {net : Net} {rows : List Row} {t : String} {r : IRow}
    (h : ∀ g ∈ net.nodes, g.kind = NodeKind.gene → (0.8 : ℚ) ≤ g.pcc)
    (hr : r ∈ selectedRows rows t) :
    ∀ g ∈ (addGeneRow t net r).nodes, g.kind = NodeKind.gene → (0.8 : ℚ) ≤ g.pcc := by
  intro g hg hk
  have hg2 : g ∈ (if hasNode net r.2.geneSymbol then net
      else { net with nodes := net.nodes ++ [⟨r.2.geneSymbol, .gene, r.2.pcc, t, 0⟩] }).nodes := by
    simpa [addGeneRow] using hg
  split at hg2
  · exact h g hg2 hk
  · rcases List.mem_append.mp hg2 with hg3 | hg3
    · exact h g hg3 hk
    · rcases List.mem_singleton.mp hg3 with rfl
      exact pcc_of_mem_filteredRows (mem_of_mem_selectedRows hr).1

theorem genesOK_foldl_genes {rows : List Row} {t : String} :
    ∀ (L : List IRow) (net : Net), (∀ r ∈ L, r ∈ selectedRows rows t) →
      (∀ g ∈ net.nodes, g.kind = NodeKind.gene → (0.8 : ℚ) ≤ g.pcc) →
      ∀ g ∈ (L.foldl (addGeneRow t) net).nodes, g.kind = NodeKind.gene → (0.8 : ℚ) ≤ g.pcc
  | [], _, _, h => h
  | r :: L, net, hsub, h => by
    rw [List.foldl_cons]
    exact genesOK_foldl_genes L _ (fun x hx => hsub x (List.mem_cons_of_mem r hx))
      (genesOK_addGeneRow h (hsub r (List.mem_cons_self r L)))

theorem genesOK_addTissue {net : Net} (i : String) (c : ℕ)
    (h : ∀ g ∈ net.nodes, g.kind = NodeKind.gene → (0.8 : ℚ) ≤ g.pcc) :
    ∀ g ∈ (addTissue net i c).nodes, g.kind = NodeKind.gene → (0.8 : ℚ) ≤ g.pcc := by
  intro g hg hk
  rw [addTissue] at hg
  split at hg
  · simp only [] at hg
    rcases List.mem_map.mp hg with ⟨n, hn, rfl⟩
    by_cases hid : n.id = i
    · simp [hid] at hk
    · rw [if_neg hid] at hk ⊢
      exact h n hn hk
  · rcases List.mem_append.mp hg with hg3 | hg3
    · exact h g hg3 hk
    · rcases List.mem_singleton.mp hg3 with rfl
      simp at hk

theorem genesOK_foldl_tissues {central : String} {rows : List Row} :
    ∀ (L : List String) (net : Net),
      (∀ g ∈ net.nodes, g.kind = NodeKind.gene → (0.8 : ℚ) ≤ g.pcc) →
      ∀ g ∈ (L.foldl (addTissueStep central rows) net).nodes,
        g.kind = NodeKind.gene → (0.8 : ℚ) ≤ g.pcc
  | [], _, h => h
  | t0 :: L, net, h => by
    rw [List.foldl_cons]
    refine genesOK_foldl_tissues L _ ?_
    intro g hg hk
    have hg2 : g ∈ (addTissue net t0 (tissueGeneCount rows t0)).nodes := by
      simpa [addTissueStep] using hg
    exact genesOK_addTissue t0 (tissueGeneCount rows t0) h g hg2 hk

theorem geneCountFor_addGeneRow (t0 t : String) (net : Net) (r : IRow) :
    geneCountFor (addGeneRow t0 net r) t ≤ geneCountFor net t + (if t0 = t then 1 else 0) := by
  by_cases hN : hasNode net r.2.geneSymbol
  · simp [addGeneRow, geneCountFor, hN]
  · by_cases ht : t0 = t <;>
      simp [addGeneRow, geneCountFor, hN, List.filter_append, ht]

theorem geneCountFor_foldl_genes (t0 t : String) :
    ∀ (L : List IRow) (net : Net),
      geneCountFor (L.foldl (addGeneRow t0) net) t ≤
        geneCountFor net t + (if t0 = t then L.length else 0)
  | [], net => by simp
  | r :: L, net => by
    rw [List.foldl_cons]
    have h1 := geneCountFor_addGeneRow t0 t net r
    have h2 := geneCountFor_foldl_genes t0 t L (addGeneRow t0 net r)
    by_cases ht : t0 = t <;> simp [ht] at h1 h2 ⊢ <;> omega

theorem geneCountFor_addTissueGenes (rows : List Row) (net : Net) (t0 t : String) :
    geneCountFor (addTissueGenes rows net t0) t ≤
      geneCountFor net t + (if t0 = t then 150 else 0) := by
  have h1 := geneCountFor_foldl_genes t0 t (selectedRows rows t0) net
  have h2 := selectedRows_length_le rows t0
  rw [addTissueGenes]
  by_cases ht : t0 = t
  · subst ht
    rw [if_pos rfl] at h1 ⊢
    omega
  · rw [if_neg ht] at h1 ⊢
    omega

theorem geneCountFor_foldl_tissues (rows : List Row) (t : String) :
    ∀ (L : List String) (net : Net), L.Nodup →
      geneCountFor (L.foldl (addTissueGenes rows) net) t ≤
        geneCountFor net t + (if t ∈ L then 150 else 0)
  | [], net, _ => by simp
  | t0 :: L, net, hnd => by
    rw [List.foldl_cons]
    have h1 := geneCountFor_addTissueGenes rows net t0 t
    have h2 := geneCountFor_foldl_tissues rows t L (addTissueGenes rows net t0)
      (List.nodup_cons.mp hnd).2
    by_cases ht : t0 = t
    · subst ht
      have hNin : t0 ∉ L := (List.nodup_cons.mp hnd).1
      rw [if_neg hNin] at h2
      rw [if_pos rfl] at h1
      rw [if_pos (List.mem_cons_self t0 L)]
      omega
    · rw [if_neg ht] at h1
      by_cases htL : t ∈ L
      · rw [if_pos htL] at h2
        rw [if_pos (List.mem_cons_of_mem t0 htL)]
        omega
      · rw [if_neg htL] at h2
        have hmem : t ∉ t0 :: L := by
          intro h
          rcases List.mem_cons.mp h with h | h
          · exact ht h.symm
          · exact htL h
        rw [if_neg hmem]
        omega

theorem genesOK_foldl_geneLoops {rows : List Row} :
    ∀ (L : List String) (net : Net),
      (∀ g ∈ net.nodes, g.kind = NodeKind.gene → (0.8 : ℚ) ≤ g.pcc) →
      ∀ g ∈ (L.foldl (addTissueGenes rows) net).nodes,
        g.kind = NodeKind.gene → (0.8 : ℚ) ≤ g.pcc
  | [], _, h => h
  | t0 :: L, net, h => by
    rw [List.foldl_cons]
    exact genesOK_foldl_geneLoops L _
      (genesOK_foldl_genes (selectedRows rows t0) net (fun r hr => hr) h)

theorem no_gene_kind_foldl_tissues {central : String} {rows : List Row} :
    ∀ (L : List String) (net : Net), (∀ g ∈ net.nodes, g.kind ≠ NodeKind.gene) →
      ∀ g ∈ (L.foldl (addTissueStep central rows) net).nodes, g.kind ≠ NodeKind.gene
  | [], _, h => h
  | t0 :: L, net, h => by
    rw [List.foldl_cons]
    refine no_gene_kind_foldl_tissues L _ ?_
    intro g hg
    have hg2 : g ∈ (addTissue net t0 (tissueGeneCount rows t0)).nodes := by
      simpa [addTissueStep] using hg
    rw [addTissue] at hg2
    split at hg2
    · simp only [] at hg2
      rcases List.mem_map.mp hg2 with ⟨n, hn, rfl⟩
      by_cases hid : n.id = t0
      · simp [hid]
      · rw [if_neg hid]
        exact h n hn
    · rcases List.mem_append.mp hg2 with hg3 | hg3
      · exact h g hg3
      · rcases List.mem_singleton.mp hg3 with rfl
        simp

/-- C1: every gene node of the generated graph has PCC at least the fixed 0.8
threshold, and no tissue contributes more than 150 gene nodes. -/
theorem gene_nodes_thresholded_and_capped (central : String) (rows : List Row) :
    (∀ g ∈ (buildNet central rows).nodes, g.kind = NodeKind.gene → (0.8 : ℚ) ≤ g.pcc) ∧
      ∀ t : String, geneCountFor (buildNet central rows) t ≤ 150 := by
  have hbase : ∀ g ∈ (addCentral ⟨[], []⟩ central).nodes, g.kind ≠ NodeKind.gene := by
    intro g hg
    have : g = ⟨central, .central, 0, "", 0⟩ := by
      simpa [addCentral, hasNode] using hg
    subst this
    simp
  have hnet2 : ∀ g ∈ ((tissueTypes rows).foldl (addTissueStep central rows)
      (addCentral ⟨[], []⟩ central)).nodes, g.kind ≠ NodeKind.gene :=
    no_gene_kind_foldl_tissues (tissueTypes rows) _ hbase
  constructor
  · have hOK : ∀ g ∈ ((tissueTypes rows).foldl (addTissueStep central rows)
        (addCentral ⟨[], []⟩ central)).nodes, g.kind = NodeKind.gene → (0.8 : ℚ) ≤ g.pcc :=
      fun g hg hk => absurd hk (hnet2 g hg)
    intro g hg hk
    exact genesOK_foldl_geneLoops (tissueTypes rows) _ hOK g (by simpa [buildNet] using hg) hk
  · intro t
    have h0 : geneCountFor ((tissueTypes rows).foldl (addTissueStep central rows)
        (addCentral ⟨[], []⟩ central)) t = 0 := by
      rw [geneCountFor, List.length_eq_zero]
      rw [List.filter_eq_nil_iff]
      intro g hg
      simp [hnet2 g hg]
    have hb := geneCountFor_foldl_tissues rows t (tissueTypes rows)
      ((tissueTypes rows).foldl (addTissueStep central rows) (addCentral ⟨[], []⟩ central))
      (tissueTypes_nodup rows)
    rw [h0] at hb
    have hgoal : geneCountFor (buildNet central rows) t ≤
        0 + (if t ∈ tissueTypes rows then 150 else 0) := by
      simpa [buildNet] using hb
    by_cases htm : t ∈ tissueTypes rows <;> simp [htm] at hgoal <;> omega

/-- Witness for `gene_nodes_thresholded_and_capped` on the three-row example. -/
theorem gene_nodes_thresholded_and_capped_spot :
    (0.8 : ℚ) ≤ (0.95 : ℚ) ∧ geneCountFor (buildNet "GCH1" demoRows) "TissueA" ≤ 150 :=
  ⟨(gene_nodes_thresholded_and_capped "GCH1" demoRows).1
      ⟨"Gene1", .gene, 0.95, "TissueA", 0⟩ (by decide) (by decide),
    (gene_nodes_thresholded_and_capped "GCH1" demoRows).2 "TissueA"⟩

/-! ## C4: zoom-to-cursor -/

/-- C4: for any in-bounds view state, a wheel event multiplies the scale by
1.1 (wheel up) or 0.9 (wheel down), clamps it to `[MIN_SCALE, MAX_SCALE]`, and
recomputes the offset so that the plane coordinate under the cursor (via the
view transform `(mouse - offset) / scale`) is unchanged. -/
theorem handleWheel_zoom_to_cursor (st : ViewState) (mouseX mouseY deltaY : ℚ)
    (h1 : MIN_SCALE ≤ st.scale) (_h2 : st.scale ≤ MAX_SCALE) :
    (handleWheel st mouseX mouseY deltaY).scale =
        max MIN_SCALE (min MAX_SCALE
          (if deltaY < 0 then st.scale * 1.1 else st.scale * 0.9)) ∧
      MIN_SCALE ≤ (handleWheel st mouseX mouseY deltaY).scale ∧
      (handleWheel st mouseX mouseY deltaY).scale ≤ MAX_SCALE ∧
      planePoint (handleWheel st mouseX mouseY deltaY) mouseX mouseY =
        planePoint st mouseX mouseY := by
  have h0 : (0 : ℚ) < MIN_SCALE := by norm_num [MIN_SCALE]
  have hs : st.scale ≠ 0 := ne_of_gt (lt_of_lt_of_le h0 h1)
  refine ⟨rfl, le_max_left _ _, max_le (by norm_num [MIN_SCALE, MAX_SCALE]) (min_le_left _ _), ?_⟩
  have hs2 : max MIN_SCALE (min MAX_SCALE
      (if deltaY < 0 then st.scale * 1.1 else st.scale * 0.9)) ≠ 0 :=
    ne_of_gt (lt_of_lt_of_le h0 (le_max_left _ _))
  show planePoint
      ⟨max MIN_SCALE (min MAX_SCALE (if deltaY < 0 then st.scale * 1.1 else st.scale * 0.9)),
        mouseX - (mouseX - st.offsetX) / st.scale *
          max MIN_SCALE (min MAX_SCALE (if deltaY < 0 then st.scale * 1.1 else st.scale * 0.9)),
        mouseY - (mouseY - st.offsetY) / st.scale *
          max MIN_SCALE (min MAX_SCALE (if deltaY < 0 then st.scale * 1.1 else st.scale * 0.9))⟩
      mouseX mouseY = planePoint st mouseX mouseY
  rw [planePoint, planePoint, Prod.mk.injEq]
  constructor <;> field_simp <;> ring

/-- Witness for `handleWheel_zoom_to_cursor` at a concrete wheel-up event. -/
theorem handleWheel_zoom_to_cursor_spot :
    MIN_SCALE ≤ (1 : ℚ) ∧ (1 : ℚ) ≤ MAX_SCALE ∧
      planePoint (handleWheel ⟨1, 20, 30⟩ 3 4 (-1)) 3 4 = planePoint ⟨1, 20, 30⟩ 3 4 :=
  ⟨by decide, by decide,
    (handleWheel_zoom_to_cursor ⟨1, 20, 30⟩ 3 4 (-1) (by decide) (by decide)).2.2.2⟩

/-! ## C9: the failure boundary -/

/-- C9: `create_web_network` is total — whenever any step of the body fails,
the exception is absorbed by the catch-all handler and the function returns
the empty result, and otherwise it returns the built graph. -/
theorem create_web_network_failure_boundary (env : Env) (central : String) :
    (∀ e, tryBody env central = .error e → create_web_network env central = none) ∧
      ∀ net, tryBody env central = .ok net → create_web_network env central = some net := by
  constructor
  · intro e h
    simp [create_web_network, h]
  · intro net h
    simp [create_web_network, h]

/-- Witness for `create_web_network_failure_boundary`: a missing input file
yields the empty result. -/
theorem create_web_network_failure_boundary_spot :
    create_web_network envMissingFile "GCH1" = none :=
  (create_web_network_failure_boundary envMissingFile "GCH1").1 "FileNotFoundError" rfl

/-! ## C6: hit-testing -/

theorem getNodeLoop_eq_find (st : ViewState) (x y : ℚ) (nodes : List (VNode ℚ)) :
    ∀ k : ℕ, getNodeLoop st x y nodes k =
      ((nodes.take k).reverse).find? (fun n => decide (nodeHit st x y n))
  | 0 => rfl
  | k + 1 => by
    rw [getNodeLoop]
    cases h : nodes[k]? with
    | some n =>
      rw [List.take_succ, h]
      simp only [Option.toList, List.reverse_append, List.reverse_cons, List.reverse_nil,
        List.nil_append, List.singleton_append]
      rw [List.find?_cons]
      by_cases hn : nodeHit st x y n
      · simp [hn]
      · simp [hn, getNodeLoop_eq_find st x y nodes k]
    | none =>
      have hk : nodes.length ≤ k := by
        simpa using List.getElem?_eq_none_iff.mp h
      rw [List.take_succ, h]
      simp [getNodeLoop_eq_find st x y nodes k]

/-- C6 amended: `getNodeAtPosition` examines the node array in reverse array
order — which is genes first and the central node last, not the reverse of the
draw order — and reports the first node whose screen-space Euclidean distance
to the pointer is at most its screen radius `node.size * scale`. -/
theorem getNodeAtPosition_spec (st : ViewState) (x y : ℚ) (nodes : List (VNode ℚ)) :
    getNodeAtPosition st x y nodes =
        nodes.reverse.find? (fun n => decide (nodeHit st x y n)) ∧
      (∀ n, getNodeAtPosition st x y nodes = some n → n ∈ nodes ∧ nodeHit st x y n) ∧
      (getNodeAtPosition st x y nodes = none → ∀ n ∈ nodes, ¬ nodeHit st x y n) := by
  have h1 : getNodeAtPosition st x y nodes =
      nodes.reverse.find? (fun n => decide (nodeHit st x y n)) := by
    rw [getNodeAtPosition, getNodeLoop_eq_find, List.take_length]
  refine ⟨h1, ?_, ?_⟩
  · intro n hn
    rw [h1] at hn
    have hm := List.mem_of_find?_eq_some hn
    have hp := List.find?_some hn
    exact ⟨List.mem_reverse.mp hm, of_decide_eq_true hp⟩
  · intro hnone n hn
    rw [h1] at hnone
    simpa using List.find?_eq_none.mp hnone n (List.mem_reverse.mpr hn)

/-- Witness for `getNodeAtPosition_spec`: the node reported at the origin of
the example array is a member that passes the distance test. -/
theorem getNodeAtPosition_spec_spot : gNode ∈ exNodesQ ∧ nodeHit ⟨1, 0, 0⟩ 0 0 gNode :=
  (getNodeAtPosition_spec ⟨1, 0, 0⟩ 0 0 exNodesQ).2.1 gNode (by decide)

/-- C6 counterexample: visiting in reverse array order is not visiting in
reverse draw order.  At a pointer over both the central node and a gene,
`getNodeAtPosition` returns the gene, while the reverse of the draw order
would put the central node (the topmost drawn) first. -/
theorem hit_order_not_reverse_draw_order :
    getNodeAtPosition ⟨1, 0, 0⟩ 0 0 exNodesQ = some gNode ∧
      ((drawOrder exNodesQ).reverse).find? (fun n => decide (nodeHit ⟨1, 0, 0⟩ 0 0 n)) =
        some cNode ∧
      gNode ≠ cNode := by
  decide

/-! ## C2: tissue anchors on the golden-angle circle -/

theorem tissueAnchor_dist (i : ℕ) : dist2D (tissueAnchor i) (0, 0) = 400 := by
  have hcs := Real.cos_sq_add_sin_sq ((i : ℝ) * goldenAngle)
  have h : (400 * Real.cos ((i : ℝ) * goldenAngle) - 0) ^ 2 +
      (400 * Real.sin ((i : ℝ) * goldenAngle) - 0) ^ 2 = 400 ^ 2 := by nlinarith [hcs]
  show Real.sqrt ((400 * Real.cos ((i : ℝ) * goldenAngle) - 0) ^ 2 +
      (400 * Real.sin ((i : ℝ) * goldenAngle) - 0) ^ 2) = 400
  rw [h, Real.sqrt_sq (by norm_num : (0 : ℝ) ≤ 400)]

theorem tissueAnchor_inj {i j : ℕ} (h : tissueAnchor i = tissueAnchor j) : i = j := by
  have h1 : (400 : ℝ) * Real.cos ((i : ℝ) * goldenAngle) =
      400 * Real.cos ((j : ℝ) * goldenAngle) := congrArg Prod.fst h
  have h2 : (400 : ℝ) * Real.sin ((i : ℝ) * goldenAngle) =
      400 * Real.sin ((j : ℝ) * goldenAngle) := congrArg Prod.snd h
  have hc : Real.cos ((i : ℝ) * goldenAngle) = Real.cos ((j : ℝ) * goldenAngle) :=
    mul_left_cancel₀ (by norm_num : (400 : ℝ) ≠ 0) h1
  have hsin : Real.sin ((i : ℝ) * goldenAngle) = Real.sin ((j : ℝ) * goldenAngle) :=
    mul_left_cancel₀ (by norm_num : (400 : ℝ) ≠ 0) h2
  have hA : (((i : ℝ) * goldenAngle : ℝ) : Real.Angle) = ((j : ℝ) * goldenAngle : ℝ) := by
    apply Real.Angle.cos_sin_inj
    · exact hc
    · exact hsin
  obtain ⟨k, hk⟩ := Real.Angle.angle_eq_iff_two_pi_dvd_sub.mp hA
  by_contra hne
  have hdR : ((i : ℝ) - (j : ℝ)) ≠ 0 :=
    sub_ne_zero.mpr (fun hh => hne (by exact_mod_cast hh))
  rw [goldenAngle] at hk
  have hmain : ((i : ℝ) - (j : ℝ)) * (3 - Real.sqrt 5) = 2 * (k : ℝ) := by
    have hstep : Real.pi * (((i : ℝ) - (j : ℝ)) * (3 - Real.sqrt 5)) =
        Real.pi * (2 * (k : ℝ)) := by linear_combination hk
    exact mul_left_cancel₀ Real.pi_ne_zero hstep
  have hirr : Irrational (Real.sqrt 5) := by
    have h5 : Nat.Prime 5 := by norm_num
    simpa using h5.irrational_sqrt
  apply hirr
  refine ⟨3 - 2 * (k : ℚ) / ((i : ℚ) - (j : ℚ)), ?_⟩
  push_cast
  have hfrac : 2 * (k : ℝ) / ((i : ℝ) - (j : ℝ)) = 3 - Real.sqrt 5 := by
    rw [div_eq_iff hdR]
    linear_combination -hmain
  rw [hfrac]
  ring

/-- C2: in the generated layout the `i`-th tissue type (first-seen order) is
anchored at exactly `(400·cos(i·φ), 400·sin(i·φ))` with `φ = π(3−√5)`; every
anchor lies at distance exactly 400 from the central node at the origin, and
anchors of distinct indices never coincide. -/
theorem tissue_anchor_positions (rows : List Row) (i j : ℕ)
    (hi : i < (tissueTypes rows).length) (hne : i ≠ j) :
    (tissuePosList rows)[i]? =
        some ((tissueTypes rows).get ⟨i, hi⟩, tissueAnchor i) ∧
      dist2D (tissueAnchor i) (0, 0) = 400 ∧
      tissueAnchor i ≠ tissueAnchor j := by
  refine ⟨?_, tissueAnchor_dist i, fun h => hne (tissueAnchor_inj h)⟩
  rw [tissuePosList, List.getElem?_map, List.getElem?_enum,
    List.getElem?_eq_getElem hi]
  rfl

/-- Witness for `tissue_anchor_positions` with two tissue types. -/
theorem tissue_anchor_positions_spot :
    dist2D (tissueAnchor 0) (0, 0) = 400 ∧ tissueAnchor 0 ≠ tissueAnchor 1 :=
  ⟨(tissue_anchor_positions twoTissueRows 0 1 (by decide) (by decide)).2.1,
    (tissue_anchor_positions twoTissueRows 0 1 (by decide) (by decide)).2.2⟩

/-! ## C3: the spiral angle of the generation-time gene cloud -/

/-- C3 fails on the code: the spiral angle is computed from the original
dataframe row index yielded by `iterrows`, not from the gene's position in the
sorted selection.  On `angleRows` the sorted selection is `[G2, G1]`; the
claim gives its position-0 gene `G2` the angle `(0/2)·2π = 0`, but the code
computes `(1/2)·2π = π` (and `0` for `G1`, at position 1, instead of `π`). -/
theorem gene_base_angle_uses_original_index :
    selectedRows angleRows "A" = [(1, ⟨"A", "G2", 0.95⟩), (0, ⟨"A", "G1", 0.85⟩)] ∧
      geneBaseAngle angleRows "A" (1, ⟨"A", "G2", 0.95⟩) = Real.pi ∧
      geneBaseAngle angleRows "A" (0, ⟨"A", "G1", 0.85⟩) = 0 ∧
      Real.pi ≠ 0 := by
  have hsel : selectedRows angleRows "A" =
      [(1, ⟨"A", "G2", 0.95⟩), (0, ⟨"A", "G1", 0.85⟩)] := by decide
  have hlen : ((selectedRows angleRows "A").length : ℝ) = 2 := by rw [hsel]; norm_num
  refine ⟨hsel, ?_, ?_, Real.pi_ne_zero⟩
  · rw [geneBaseAngle, hlen]
    push_cast
    ring
  · rw [geneBaseAngle, hlen]
    push_cast
    ring

/-! ## C10: the renderer relayout on initialization -/

theorem dist2D_polar (cx cy d θ : ℝ) (hd : 0 ≤ d) :
    dist2D (cx + d * Real.cos θ, cy + d * Real.sin θ) (cx, cy) = d := by
  have hcs := Real.cos_sq_add_sin_sq θ
  have h : (cx + d * Real.cos θ - cx) ^ 2 + (cy + d * Real.sin θ - cy) ^ 2 = d ^ 2 := by
    nlinarith [hcs]
  show Real.sqrt ((cx + d * Real.cos θ - cx) ^ 2 + (cy + d * Real.sin θ - cy) ^ 2) = d
  rw [h, Real.sqrt_sq hd]

theorem newGenePos_dist_ge (noise : String → ℝ × ℝ) (t : VNode ℝ) (idx n : ℕ)
    (g : VNode ℝ) : 20 ≤ dist2D (newGenePos noise t idx n g) (t.x, t.y) := by
  have hd : (20 : ℝ) ≤ max 20 ((40 + (1 - (g.pcc : ℝ)) * 100) +
      ((noise g.id).2 * 2 - 1) * (0.2 + 0.5 * (1 - (g.pcc : ℝ))) * 60) := le_max_left _ _
  have h0 : (0 : ℝ) ≤ max 20 ((40 + (1 - (g.pcc : ℝ)) * 100) +
      ((noise g.id).2 * 2 - 1) * (0.2 + 0.5 * (1 - (g.pcc : ℝ))) * 60) :=
    le_trans (by norm_num) hd
  calc (20 : ℝ) ≤ _ := hd
    _ = dist2D (newGenePos noise t idx n g) (t.x, t.y) := (dist2D_polar t.x t.y _ _ h0).symm

theorem optimizeNode_preserves (noise : String → ℝ × ℝ) (nodes : List (VNode ℝ))
    (g : VNode ℝ) :
    (optimizeNode noise nodes g).node_type = g.node_type ∧
      (optimizeNode noise nodes g).tissue = g.tissue := by
  rw [optimizeNode]
  split
  · split
    · exact ⟨rfl, rfl⟩
    · exact ⟨rfl, rfl⟩
  · exact ⟨rfl, rfl⟩

theorem optimizeNode_dist (noise : String → ℝ × ℝ) (nodes : List (VNode ℝ))
    (g : VNode ℝ) (htype : g.node_type = "gene") (t : VNode ℝ)
    (ht : (nodes.filter (fun n => decide (n.node_type = "tissue"))).reverse.find?
        (fun n => decide (n.id = g.tissue)) = some t) :
    20 ≤ dist2D ((optimizeNode noise nodes g).x, (optimizeNode noise nodes g).y)
      (t.x, t.y) := by
  rw [optimizeNode, if_pos htype]
  split
  · rename_i t0 heq
    have ht0 : t0 = t := Option.some.inj (heq.symm.trans ht)
    subst ht0
    exact newGenePos_dist_ge noise t0 _ _ g
  · rename_i heq
    rw [heq] at ht
    cases ht

/-- C10 amended: `initialize()` draws twice — once from `resizeCanvas()` with
the generation-time positions, then once after the single `optimizeLayout()`
invocation — and after the relayout every gene matched by a tissue node sits
at distance at least 20 from that tissue's anchor, the floor of the
renderer-side cloud formula. -/
theorem initialize_relayout (noise : String → ℝ × ℝ) (nodes : List (VNode ℝ)) :
    initializeDraws noise nodes = [nodes, optimizeLayout noise nodes] ∧
      ∀ g ∈ optimizeLayout noise nodes, g.node_type = "gene" →
        ∀ t, ((nodes.filter (fun n => decide (n.node_type = "tissue"))).reverse.find?
            (fun n => decide (n.id = g.tissue)) = some t) →
          20 ≤ dist2D (g.x, g.y) (t.x, t.y) := by
  refine ⟨rfl, ?_⟩
  intro g hg htype t ht
  rw [optimizeLayout] at hg
  rcases List.mem_map.mp hg with ⟨g0, _, rfl⟩
  have hpres := optimizeNode_preserves noise nodes g0
  rw [hpres.1] at htype
  rw [hpres.2] at ht
  exact optimizeNode_dist noise nodes g0 htype t ht

/-- Witness for `initialize_relayout`: the relocated example gene ends at
distance at least 20 from its tissue anchor at the origin. -/
theorem initialize_relayout_spot :
    20 ≤ dist2D ((optimizeNode noiseHalf exNodesR gNodeR).x,
      (optimizeNode noiseHalf exNodesR gNodeR).y) (0, 0) :=
  (initialize_relayout noiseHalf exNodesR).2 (optimizeNode noiseHalf exNodesR gNodeR)
    (List.mem_map_of_mem (optimizeNode noiseHalf exNodesR)
      (by simp [exNodesR]))
    (by rw [(optimizeNode_preserves noiseHalf exNodesR gNodeR).1]; rfl)
    tNodeR (by rfl)

/-- C10 counterexample: the first draw of `initialize()` happens inside
`resizeCanvas()`, before `optimizeLayout()` runs, so the generation-time gene
positions are displayed once: the relayout moves the example gene, hence the
first drawn array differs from the optimized one. -/
theorem initialize_first_draw_generated :
    (initializeDraws noiseHalf exNodesR).head? = some exNodesR ∧
      optimizeLayout noiseHalf exNodesR ≠ exNodesR := by
  refine ⟨rfl, fun hEq => ?_⟩
  have h1 : (optimizeLayout noiseHalf exNodesR)[1]?.map (fun n => n.x) = some 100 := by
    rw [hEq]
    rfl
  have h2 : (optimizeLayout noiseHalf exNodesR)[1]?.map (fun n => n.x) =
      some (newGenePos noiseHalf tNodeR 0 1 gNodeR).1 := rfl
  have h3 : (newGenePos noiseHalf tNodeR 0 1 gNodeR).1 = 40 := by
    rw [newGenePos]
    norm_num [noiseHalf, gNodeR, tNodeR, Real.cos_zero]
  rw [h2, h3] at h1
  have : (40 : ℝ) = 100 := Option.some.inj h1
  norm_num at this

/-! ## C8: gene nodes and their tissue associations -/

theorem map_id_update {nodes : List GNode} {upd : GNode → GNode}
    (hupd : ∀ n, (upd n).id = n.id) :
    (nodes.map upd).map GNode.id = nodes.map GNode.id := by
  rw [List.map_map]
  exact List.map_congr_left (fun n _ => hupd n)

theorem not_mem_ids_of_not_hasNode {net : Net} {i : String} (h : ¬ hasNode net i) :
    i ∉ net.nodes.map GNode.id := by
  intro hmem
  rcases List.mem_map.mp hmem with ⟨n, hn, hid⟩
  apply h
  rw [hasNode, List.any_eq_true]
  exact ⟨n, hn, by simp [hid]⟩

theorem idsOK_addCentral {net : Net} (i : String)
    (h : (net.nodes.map GNode.id).Nodup) :
    ((addCentral net i).nodes.map GNode.id).Nodup := by
  by_cases hN : hasNode net i
  · rw [addCentral, if_pos hN]
    simp only []
    rw [map_id_update (fun n => by split <;> rfl)]
    exact h
  · rw [addCentral, if_neg hN]
    simp only [List.map_append]
    rw [List.nodup_append]
    refine ⟨h, List.nodup_singleton _, fun x hx hx2 => ?_⟩
    rw [List.mem_singleton.mp hx2] at hx
    exact not_mem_ids_of_not_hasNode hN hx

theorem idsOK_addTissue {net : Net} (i : String) (c : ℕ)
    (h : (net.nodes.map GNode.id).Nodup) :
    ((addTissue net i c).nodes.map GNode.id).Nodup := by
  by_cases hN : hasNode net i
  · rw [addTissue, if_pos hN]
    simp only []
    rw [map_id_update (fun n => by split <;> rfl)]
    exact h
  · rw [addTissue, if_neg hN]
    simp only [List.map_append]
    rw [List.nodup_append]
    refine ⟨h, List.nodup_singleton _, fun x hx hx2 => ?_⟩
    rw [List.mem_singleton.mp hx2] at hx
    exact not_mem_ids_of_not_hasNode hN hx

theorem idsOK_addGeneRow {net : Net} (t : String) (r : IRow)
    (h : (net.nodes.map GNode.id).Nodup) :
    ((addGeneRow t net r).nodes.map GNode.id).Nodup := by
  by_cases hN : hasNode net r.2.geneSymbol
  · simpa [addGeneRow, hN] using h
  · have : (addGeneRow t net r).nodes = net.nodes ++ [⟨r.2.geneSymbol, .gene, r.2.pcc, t, 0⟩] := by
      simp [addGeneRow, hN]
    rw [this, List.map_append, List.nodup_append]
    refine ⟨h, List.nodup_singleton _, fun x hx hx2 => ?_⟩
    rw [List.mem_singleton.mp hx2] at hx
    exact not_mem_ids_of_not_hasNode hN hx

theorem idsOK_foldl_genes (t : String) :
    ∀ (L : List IRow) (net : Net), (net.nodes.map GNode.id).Nodup →
      (((L.foldl (addGeneRow t) net).nodes.map GNode.id)).Nodup
  | [], _, h => h
  | r :: L, net, h => by
    rw [List.foldl_cons]
    exact idsOK_foldl_genes t L _ (idsOK_addGeneRow t r h)

theorem idsOK_foldl_geneLoops (rows : List Row) :
    ∀ (L : List String) (net : Net), (net.nodes.map GNode.id).Nodup →
      (((L.foldl (addTissueGenes rows) net).nodes.map GNode.id)).Nodup
  | [], _, h => h
  | t0 :: L, net, h => by
    rw [List.foldl_cons]
    exact idsOK_foldl_geneLoops rows L _ (idsOK_foldl_genes t0 (selectedRows rows t0) net h)

theorem idsOK_foldl_tissues (central : String) (rows : List Row) :
    ∀ (L : List String) (net : Net), (net.nodes.map GNode.id).Nodup →
      (((L.foldl (addTissueStep central rows) net).nodes.map GNode.id)).Nodup
  | [], _, h => h
  | t0 :: L, net, h => by
    rw [List.foldl_cons]
    refine idsOK_foldl_tissues central rows L _ ?_
    have : (addTissueStep central rows net t0).nodes =
        (addTissue net t0 (tissueGeneCount rows t0)).nodes := by
      simp [addTissueStep]
    rw [this]
    exact idsOK_addTissue t0 (tissueGeneCount rows t0) h

theorem provenance_addGeneRow {rows : List Row} {t : String} {r : IRow} {net : Net}
    (hr : r ∈ selectedRows rows t)
    (h : ∀ g ∈ net.nodes, g.kind = NodeKind.gene →
      ∃ s ∈ selectedRows rows g.tissue, s.2.geneSymbol = g.id ∧ s.2.pcc = g.pcc) :
    ∀ g ∈ (addGeneRow t net r).nodes, g.kind = NodeKind.gene →
      ∃ s ∈ selectedRows rows g.tissue, s.2.geneSymbol = g.id ∧ s.2.pcc = g.pcc := by
  intro g hg hk
  have hg2 : g ∈ (if hasNode net r.2.geneSymbol then net
      else { net with nodes := net.nodes ++ [⟨r.2.geneSymbol, .gene, r.2.pcc, t, 0⟩] }).nodes := by
    simpa [addGeneRow] using hg
  split at hg2
  · exact h g hg2 hk
  · rcases List.mem_append.mp hg2 with hg3 | hg3
    · exact h g hg3 hk
    · rcases List.mem_singleton.mp hg3 with rfl
      exact ⟨r, hr, rfl, rfl⟩

theorem provenance_foldl_genes {rows : List Row} {t : String} :
    ∀ (L : List IRow) (net : Net), (∀ r ∈ L, r ∈ selectedRows rows t) →
      (∀ g ∈ net.nodes, g.kind = NodeKind.gene →
        ∃ s ∈ selectedRows rows g.tissue, s.2.geneSymbol = g.id ∧ s.2.pcc = g.pcc) →
      ∀ g ∈ (L.foldl (addGeneRow t) net).nodes, g.kind = NodeKind.gene →
        ∃ s ∈ selectedRows rows g.tissue, s.2.geneSymbol = g.id ∧ s.2.pcc = g.pcc
  | [], _, _, h => h
  | r :: L, net, hsub, h => by
    rw [List.foldl_cons]
    exact provenance_foldl_genes L _ (fun x hx => hsub x (List.mem_cons_of_mem r hx))
      (provenance_addGeneRow (hsub r (List.mem_cons_self r L)) h)

theorem provenance_foldl_geneLoops {rows : List Row} :
    ∀ (L : List String) (net : Net),
      (∀ g ∈ net.nodes, g.kind = NodeKind.gene →
        ∃ s ∈ selectedRows rows g.tissue, s.2.geneSymbol = g.id ∧ s.2.pcc = g.pcc) →
      ∀ g ∈ (L.foldl (addTissueGenes rows) net).nodes, g.kind = NodeKind.gene →
        ∃ s ∈ selectedRows rows g.tissue, s.2.geneSymbol = g.id ∧ s.2.pcc = g.pcc
  | [], _, h => h
  | t0 :: L, net, h => by
    rw [List.foldl_cons]
    exact provenance_foldl_geneLoops L _
      (provenance_foldl_genes (selectedRows rows t0) net (fun r hr => hr) h)

/-- C8 amended: node ids are unique, so a symbol has at most one gene node and
that node carries a single originating-tissue attribute, witnessed by one
selected row of that tissue (the first tissue to add the symbol); but — per
the counterexample — the node's edges are not confined to that tissue when the
symbol is selected under several tissue labels. -/
theorem gene_node_single_attribution (central : String) (rows : List Row) :
    ((buildNet central rows).nodes.map GNode.id).Nodup ∧
      ∀ g ∈ (buildNet central rows).nodes, g.kind = NodeKind.gene →
        ∃ s ∈ selectedRows rows g.tissue, s.2.geneSymbol = g.id ∧ s.2.pcc = g.pcc := by
  have hbase : ((addCentral ⟨[], []⟩ central).nodes.map GNode.id).Nodup := by
    have : (addCentral ⟨[], []⟩ central).nodes = [⟨central, .central, 0, "", 0⟩] := by
      simp [addCentral, hasNode]
    rw [this]
    exact List.nodup_singleton _
  have hnet2ids := idsOK_foldl_tissues central rows (tissueTypes rows) _ hbase
  have hnet2kind : ∀ g ∈ ((tissueTypes rows).foldl (addTissueStep central rows)
      (addCentral ⟨[], []⟩ central)).nodes, g.kind ≠ NodeKind.gene := by
    refine no_gene_kind_foldl_tissues (tissueTypes rows) _ ?_
    intro g hg
    have : g = ⟨central, .central, 0, "", 0⟩ := by
      simpa [addCentral, hasNode] using hg
    subst this
    simp
  constructor
  · have := idsOK_foldl_geneLoops rows (tissueTypes rows) _ hnet2ids
    simpa [buildNet] using this
  · intro g hg hk
    refine provenance_foldl_geneLoops (tissueTypes rows) _
      (fun g2 hg2 hk2 => absurd hk2 (hnet2kind g2 hg2)) g ?_ hk
    simpa [buildNet] using hg

/-- Witness for `gene_node_single_attribution` on the three-row example. -/
theorem gene_node_single_attribution_spot :
    ((buildNet "GCH1" demoRows).nodes.map GNode.id).Nodup ∧
      ∃ s ∈ selectedRows demoRows "TissueA", s.2.geneSymbol = "Gene1" ∧ s.2.pcc = 0.95 :=
  ⟨(gene_node_single_attribution "GCH1" demoRows).1,
    (gene_node_single_attribution "GCH1" demoRows).2
      ⟨"Gene1", .gene, 0.95, "TissueA", 0⟩ (by decide) (by decide)⟩

/-- C8 counterexample: a symbol selected under two tissues keeps the first
tissue's attribute but gains an edge to each tissue, so its only tissue
association is not the attributed one. -/
theorem shared_gene_multi_tissue_edges :
    (geneNodes (buildNet "GCH1" sharedGeneRows)).map (fun g => (g.id, g.tissue)) =
        [("G1", "A")] ∧
      edgeWeight (buildNet "GCH1" sharedGeneRows) "G1" "A" = some (0.9 * 3) ∧
      edgeWeight (buildNet "GCH1" sharedGeneRows) "G1" "B" = some (0.85 * 3) ∧
      "B" ≠ "A" := by
  decide

end TumorNetwork
